import Mathlib

/-!
Verification development for the qabot hybrid retrieval engine.

The definitions below are a shallow embedding of the Python source:
`src/index_documents.py` (chunk-time entity extraction, table normalization),
`src/query_documents.py` (query-time entity extraction, CLI metadata search),
and `src/backend/main.py` (backend metadata search, hybrid routing, streaming
answer assembly).  Python strings are modelled as `String`/`List Char`,
Python lists as `List`, Python `None`-able metadata fields as `Option String`.
A Python `set(...)` that is only membership-tested is modelled as a
deduplicated list (`pyDedup`); where the source *iterates* a set whose
order is observable (the citations join of the backend), the iteration
order is a parameter of the model, constrained only by what CPython
guarantees — each distinct element exactly once, in no particular order
(`IsSetOrder`) — since CPython's set iteration order is hash-dependent.
The regular-expression patterns of the source are hand-compiled to a small
backtracking matcher (`RE`, `matchEnds`, `reFindall`) that mirrors Python
`re` semantics for the constructs these patterns use: character classes,
greedy counted repetition of a class, alternation tried left to right, and
word boundaries, with leftmost-first scanning in `findall`.
-/

/-! ### Character classes (ASCII, as used by the source's patterns) -/

/-- Python `\d` on the ASCII inputs this system handles. -/
def isDigitC (c : Char) : Bool := '0' ≤ c && c ≤ '9'

/-- Python `[A-Z]`. -/
def isUpperC (c : Char) : Bool := 'A' ≤ c && c ≤ 'Z'

/-- Python `[a-z]`. -/
def isLowerC (c : Char) : Bool := 'a' ≤ c && c ≤ 'z'

/-- Python `[A-Za-z]`. -/
def isAlphaC (c : Char) : Bool := isUpperC c || isLowerC c

/-- Python `\w` restricted to ASCII inputs: letters, digits, underscore. -/
def isWordC (c : Char) : Bool := isAlphaC c || isDigitC c || c = '_'

/-- Python `\s` on ASCII: space, tab, newline, carriage return, vertical
tab, form feed. -/
def isSpaceC (c : Char) : Bool :=
  c = ' ' || c = '\t' || c = '\n' || c = '\r' || c = Char.ofNat 11 || c = Char.ofNat 12

/-- The class `[A-Z0-9#-]` of the record/serial-code patterns. -/
def isRecC (c : Char) : Bool := isUpperC c || isDigitC c || c = '#' || c = '-'

/-! ### Basic string helpers mirroring Python string operations -/

/-- Character at index `i`, `none` past the end. -/
def charAt (s : List Char) (i : Nat) : Option Char := (s.drop i).head?

/-- Does the second list start with the first one? -/
def startsWithL : List Char → List Char → Bool
  | [], _ => true
  | _ :: _, [] => false
  | a :: as, b :: bs => a = b && startsWithL as bs

/-- Python `needle in hay` on strings (substring containment). -/
def containsL (needle : List Char) : List Char → Bool
  | [] => needle.isEmpty
  | c :: rest => startsWithL needle (c :: rest) || containsL needle rest

/-- Python `needle in hay` on `String`. -/
def pyIn (needle hay : String) : Bool := containsL needle.toList hay.toList

/-- Python `str.strip()` on a character list. -/
def pyStripL (s : List Char) : List Char :=
  ((s.dropWhile isSpaceC).reverse.dropWhile isSpaceC).reverse

/-- Python `str.strip()`. -/
def pyStrip (s : String) : String := String.mk (pyStripL s.toList)

/-- Python `str.split(sep)` for a one-character separator: keeps empty
pieces, always returns at least one piece. -/
def splitOnChar (sep : Char) : List Char → List (List Char)
  | [] => [[]]
  | c :: rest =>
    match splitOnChar sep rest with
    | [] => if c = sep then [[], []] else [[c]]
    | piece :: pieces =>
      if c = sep then [] :: piece :: pieces else (c :: piece) :: pieces

/-- Python `sep.join(parts)`. -/
def joinSep (sep : String) : List String → String
  | [] => ""
  | [x] => x
  | x :: rest => x ++ sep ++ joinSep sep rest

/-- The distinct elements of a list, first occurrences kept in order.
Models the *contents* of Python `set(lst)` — membership and truthiness —
and serves as one admissible enumeration order of that set; it does NOT
model CPython's actual (hash-dependent, unspecified) iteration order,
which is a separate parameter wherever it is observable. -/
def pyDedup : List String → List String
  | [] => []
  | x :: rest => x :: (pyDedup rest).filter (fun y => y ≠ x)

/-- An admissible model of iterating Python `set(l)`: CPython guarantees
only that iteration yields each distinct element of `l` exactly once; the
order is unspecified (string hashing is randomized per process).  Any
function satisfying this predicate is a possible behaviour of the
program. -/
def IsSetOrder (ord : List String → List String) : Prop :=
  ∀ l : List String, (ord l).Nodup ∧ (∀ x, x ∈ ord l ↔ x ∈ l)

/-- A second admissible set-iteration order: first occurrences, reversed.
Used to exhibit that observable set order is not determined. -/
def revDedup (l : List String) : List String := (pyDedup l).reverse

/-! ### A small backtracking regex engine

Mirrors Python `re` semantics for the constructs used by the source's
patterns.  `matchEnds` returns all candidate match-end positions in the
engine's backtracking preference order (greedy repetitions longest first,
alternatives left to right, concatenation lexicographic); the head of that
list is the match Python produces.  `reFindall` scans positions left to
right and restarts after each match, as `re.findall` does. -/

/-- Regex abstract syntax: a character class, a literal, concatenation,
alternation, greedy counted repetition of a class (`hi = none` meaning
unbounded), and a word boundary `\b`. -/
inductive RE where
  | cls (p : Char → Bool)
  | lit (c : Char)
  | seq (a b : RE)
  | alt (a b : RE)
  | rep (p : Char → Bool) (lo : Nat) (hi : Option Nat)
  | wb

/-- Length of the maximal run of characters satisfying `p`. -/
def runLen (p : Char → Bool) : List Char → Nat
  | [] => 0
  | c :: rest => if p c then runLen p rest + 1 else 0

/-- Is the character at position `i` (if any) a word character? -/
def wordAtPos (s : List Char) (i : Nat) : Bool :=
  match charAt s i with
  | some c => isWordC c
  | none => false

/-- Is the character just before position `i` (if any) a word character? -/
def wordBefore (s : List Char) (i : Nat) : Bool :=
  match i with
  | 0 => false
  | j + 1 => wordAtPos s j

/-- Python `\b`: true when exactly one side of position `i` is a word
character. -/
def boundaryAt (s : List Char) (i : Nat) : Bool :=
  wordBefore s i != wordAtPos s i

/-- All candidate end positions for a match of `re` starting at `i`,
in backtracking preference order. -/
def matchEnds (s : List Char) : RE → Nat → List Nat
  | .cls p, i =>
    match charAt s i with
    | some c => if p c then [i + 1] else []
    | none => []
  | .lit a, i =>
    match charAt s i with
    | some c => if c = a then [i + 1] else []
    | none => []
  | .seq a b, i => (matchEnds s a i).flatMap (fun j => matchEnds s b j)
  | .alt a b, i => matchEnds s a i ++ matchEnds s b i
  | .rep p lo hi, i =>
    let r := runLen p (s.drop i)
    let top := match hi with | some h => min r h | none => r
    if lo ≤ top then (List.range (top - lo + 1)).map (fun k => i + top - k) else []
  | .wb, i => if boundaryAt s i then [i] else []

/-- Scanning loop of `re.findall`: at each position take the first match in
backtracking order; on a non-empty match continue after it, otherwise
advance one position (recording the empty match, as Python does). -/
def findAllAux (re : RE) (s : List Char) : Nat → Nat → List (List Char)
  | _, 0 => []
  | i, fuel + 1 =>
    if i ≤ s.length then
      match (matchEnds s re i).head? with
      | some j =>
        if i < j then ((s.drop i).take (j - i)) :: findAllAux re s j fuel
        else [] :: findAllAux re s (i + 1) fuel
      | none => findAllAux re s (i + 1) fuel
    else []

/-- Python `re.findall(pattern, s)` (no capturing groups in any of the
source's patterns, so each element is the full match). -/
def reFindall (re : RE) (s : List Char) : List (List Char) :=
  findAllAux re s 0 (s.length + 1)

/-- `re.findall` on `String`s, producing `String` matches. -/
def reFindallS (re : RE) (s : String) : List String :=
  (reFindall re s.toList).map String.mk

/-! ### The source's patterns, hand-compiled

Chunk-time (`src/index_documents.py`, `extract_entities`):
  date   = `\b(?:\d{1,2}\s+\w+\s+\d{4}|\w+\s+\d{1,2},\s+\d{4}|\d{4}-\d{2}-\d{2})\b`
  name   = `\b[A-Z][a-z]+\s+[A-Z][a-z]+\b`
  record = `\b(?:[A-Z0-9#-]{6,})\b`

Query-time (`src/query_documents.py` and `src/backend/main.py`, both named
`extract_possible_entities`, patterns identical in the two files):
  date   = same as chunk-time
  name   = `[A-Z][a-z]+ [A-Z][a-z]+`      (no `\b`, a single literal space)
  serial = `[A-Z0-9#-]{6,}`               (no `\b`)
-/

/-- `\d{1,2}\s+\w+\s+\d{4}` (first date alternative). -/
def dateAlt1 : RE :=
  .seq (.rep isDigitC 1 (some 2))
    (.seq (.rep isSpaceC 1 none)
      (.seq (.rep isWordC 1 none)
        (.seq (.rep isSpaceC 1 none) (.rep isDigitC 4 (some 4)))))

/-- `\w+\s+\d{1,2},\s+\d{4}` (second date alternative). -/
def dateAlt2 : RE :=
  .seq (.rep isWordC 1 none)
    (.seq (.rep isSpaceC 1 none)
      (.seq (.rep isDigitC 1 (some 2))
        (.seq (.lit ',')
          (.seq (.rep isSpaceC 1 none) (.rep isDigitC 4 (some 4))))))

/-- `\d{4}-\d{2}-\d{2}` (third date alternative). -/
def dateAlt3 : RE :=
  .seq (.rep isDigitC 4 (some 4))
    (.seq (.lit '-')
      (.seq (.rep isDigitC 2 (some 2))
        (.seq (.lit '-') (.rep isDigitC 2 (some 2)))))

/-- The chunk-time date pattern of `index_documents.extract_entities`. -/
def dateChunkRE : RE := .seq .wb (.seq (.alt dateAlt1 (.alt dateAlt2 dateAlt3)) .wb)

/-- The query-time date pattern of `extract_possible_entities` (textually
identical to the chunk-time one in the source). -/
def dateQueryRE : RE := .seq .wb (.seq (.alt dateAlt1 (.alt dateAlt2 dateAlt3)) .wb)

/-- The chunk-time name pattern `\b[A-Z][a-z]+\s+[A-Z][a-z]+\b`. -/
def nameChunkRE : RE :=
  .seq .wb
    (.seq (.cls isUpperC)
      (.seq (.rep isLowerC 1 none)
        (.seq (.rep isSpaceC 1 none)
          (.seq (.cls isUpperC) (.seq (.rep isLowerC 1 none) .wb)))))

/-- The query-time name pattern `[A-Z][a-z]+ [A-Z][a-z]+`. -/
def nameQueryRE : RE :=
  .seq (.cls isUpperC)
    (.seq (.rep isLowerC 1 none)
      (.seq (.lit ' ')
        (.seq (.cls isUpperC) (.rep isLowerC 1 none))))

/-- The chunk-time record pattern `\b(?:[A-Z0-9#-]{6,})\b`. -/
def recordChunkRE : RE := .seq .wb (.seq (.rep isRecC 6 none) .wb)

/-- The query-time serial pattern `[A-Z0-9#-]{6,}`. -/
def recordQueryRE : RE := .rep isRecC 6 none

/-! ### Entity extraction -/

/-- The per-category result of chunk-time extraction
(`index_documents.extract_entities` returns the 4-tuple
`dates, names, records, underlined`). -/
structure EntityCats where
  dates : List String
  names : List String
  records : List String
  underlined : List String
  deriving DecidableEq, Repr

/-- `extract_entities` of `src/index_documents.py`: three `re.findall`
calls plus the always-empty `underlined` list. -/
def extract_entities (text : String) : EntityCats :=
  { dates := reFindallS dateChunkRE text
    names := reFindallS nameChunkRE text
    records := reFindallS recordChunkRE text
    underlined := [] }

/-- `extract_possible_entities` of `src/query_documents.py` and
`src/backend/main.py`: `set(dates + names + records)`, modelled as the
deduplicated concatenation. -/
def extract_possible_entities (query : String) : List String :=
  pyDedup (reFindallS dateQueryRE query ++ reFindallS nameQueryRE query ++
    reFindallS recordQueryRE query)

/-- Flattening the three per-category chunk-time results into one set of
values, as the spec describes for query-time extraction. -/
def flattenCats (e : EntityCats) : List String :=
  e.dates ++ e.names ++ e.records

/-! ### Table normalizer (`table_text_to_markdown` of `src/index_documents.py`) -/

/-- Split on maximal runs of at least two whitespace characters:
Python `re.split(r'\s{2,}', row)`.  Structural recursion on a fuel bound;
each step consumes at least one character, so `l.length` fuel always
suffices and the zero-fuel fallback is unreachable. -/
def reSplitWs2Aux : Nat → List Char → List (List Char)
  | _, [] => [[]]
  | 0, l => [l]
  | fuel + 1, c :: rest =>
    if isSpaceC c ∧ 2 ≤ runLen isSpaceC (c :: rest) then
      [] :: reSplitWs2Aux fuel ((c :: rest).drop (runLen isSpaceC (c :: rest)))
    else
      match reSplitWs2Aux fuel rest with
      | [] => [[c]]
      | piece :: pieces => (c :: piece) :: pieces

/-- Python `re.split(r'\s{2,}', row)`. -/
def reSplitWs2 (l : List Char) : List (List Char) :=
  reSplitWs2Aux l.length l

/-- One parsed row: split on tab when the row contains one, else on runs of
two or more spaces; strip each cell. -/
def splitRow (row : List Char) : List (List Char) :=
  if row.contains '\t' then (splitOnChar '\t' row).map pyStripL
  else (reSplitWs2 row).map pyStripL

/-- The `table` value of `table_text_to_markdown` just before the
2-column check: non-blank lines of the stripped text, each split into
stripped cells, with all-empty rows dropped. -/
def buildTable (text : String) : List (List (List Char)) :=
  let rows := (splitOnChar '\n' (pyStripL text.toList)).filter
    (fun r => pyStripL r ≠ [])
  (rows.map splitRow).filter (fun r => r.any (fun cell => cell ≠ []))

/-- Pad a data row with empty cells up to the header width
(`row = list(row) + [''] * (len(header) - len(row))`; rows longer than the
header are left as they are, Nat subtraction giving zero padding). -/
def padRow (headerLen : Nat) (row : List (List Char)) : List (List Char) :=
  row ++ List.replicate (headerLen - row.length) []

/-- The cell rows the conversion emits when it produces a table: header,
separator row of dashes (one per header cell), then the padded data rows. -/
def emitRows (header : List (List Char)) (rest : List (List (List Char))) :
    List (List (List Char)) :=
  header :: List.replicate header.length ['-', '-', '-'] ::
    rest.map (padRow header.length)

/-- Render one cell row as a markdown table line: `"| " + " | ".join(r) + " |"`. -/
def fmtRow (r : List (List Char)) : String :=
  "| " ++ joinSep " | " (r.map String.mk) ++ " |"

/-- `table_text_to_markdown` of `src/index_documents.py`. -/
def table_text_to_markdown (text : String) : String :=
  match buildTable text with
  | [] => text
  | header :: rest =>
    if header.length < 2 then text
    else joinSep "\n" ((emitRows header rest).map fmtRow)

/-- The cell rows actually emitted for a text (empty when the conversion is
a no-op). -/
def emittedCellRows (text : String) : List (List (List Char)) :=
  match buildTable text with
  | [] => []
  | header :: rest => if header.length < 2 then [] else emitRows header rest

/-! ### Chunk store and metadata search -/

/-- A stored chunk as the metadata searches see it: the text plus the
metadata fields the source reads.  The four entity fields are the lists
attached at index time; the four header fields model
`doc.metadata.get(field)`, absent → `none`. -/
structure Doc where
  page_content : String
  dates : List String
  names : List String
  records : List String
  underlined : List String
  heading : Option String
  version : Option String
  revision : Option String
  source : Option String
  deriving DecidableEq, Repr

/-- A chunk with every metadata field empty, for building concrete
examples. -/
def emptyDoc : Doc :=
  { page_content := "", dates := [], names := [], records := [],
    underlined := [], heading := none, version := none, revision := none,
    source := none }

/-- One substring-field check of `metadata_search`:
`if meta_value and any(entity in str(meta_value) for entity in entity_values)`. -/
def subFieldHit (entity_values : List String) (field : Option String) : Bool :=
  match field with
  | some v => v ≠ "" && entity_values.any (fun e => pyIn e v)
  | none => false

namespace Backend

/-- The hit test of `metadata_search` in `src/backend/main.py`: exact
membership in any of `dates`, `names`, `records`, `underlined`, or a
substring occurrence in any of `heading`, `version`, `revision`, `source`. -/
def docFound (entity_values : List String) (d : Doc) : Bool :=
  ([d.dates, d.names, d.records, d.underlined].any
    (fun meta_values => entity_values.any (fun e => decide (e ∈ meta_values)))) ||
  ([d.heading, d.version, d.revision, d.source].any
    (fun field => subFieldHit entity_values field))

/-- `metadata_search` of `src/backend/main.py`: the found-flag loop over
the document store collects, in store order, the documents whose flag is
set. -/
def metadata_search (entity_values : List String) (docs : List Doc) : List Doc :=
  docs.filter (docFound entity_values)

end Backend

namespace Cli

/-- The hit test of `metadata_search` in `src/query_documents.py`: its
exact-match field list is `["dates", "names", "underlined"]` — it does not
include `records` — followed by the same four substring fields. -/
def docFound (entity_values : List String) (d : Doc) : Bool :=
  ([d.dates, d.names, d.underlined].any
    (fun meta_values => entity_values.any (fun e => decide (e ∈ meta_values)))) ||
  ([d.heading, d.version, d.revision, d.source].any
    (fun field => subFieldHit entity_values field))

/-- `metadata_search` of `src/query_documents.py`. -/
def metadata_search (entity_values : List String) (docs : List Doc) : List Doc :=
  docs.filter (docFound entity_values)

end Cli

/-! ### Hybrid orchestrator and streaming answer assembly
(`generate_streaming_response` of `src/backend/main.py`) -/

/-- Which branch of the hybrid orchestrator a query takes. -/
inductive RoutePath where
  | metadataPath
  | semanticPath
  | errorPath
  deriving DecidableEq, Repr

/-- The routing decision of `generate_streaming_response`: with no vector
store, the error return; otherwise `entity_hits = metadata_search(...) if
entity_values else []` and `if entity_hits:` chooses the metadata branch. -/
def routeOf (vectorstore : Option (List Doc)) (query : String) : RoutePath :=
  match vectorstore with
  | none => .errorPath
  | some docs =>
    let entity_values := extract_possible_entities query
    let entity_hits :=
      if entity_values.isEmpty then [] else Backend.metadata_search entity_values docs
    if entity_hits.isEmpty then .semanticPath else .metadataPath

/-- One streamed NDJSON event: `{"chunk": …}`, `{"sources": …}` or
`{"error": …}`. -/
inductive REvent where
  | chunk (s : String)
  | sources (s : String)
  | error (s : String)
  deriving DecidableEq, Repr

/-- The single-key JSON object a response event serializes to
(`json.dumps({...}) + "\n"`), as its list of top-level key/value pairs. -/
def eventObj : REvent → List (String × String)
  | .chunk s => [("chunk", s)]
  | .sources s => [("sources", s)]
  | .error s => [("error", s)]

/-- Outcome of iterating the generation collaborator's token stream
(`llm.stream(...)`): either all fragments arrive, or it raises after
producing a prefix of fragments. -/
inductive LLMStream where
  | ok (fragments : List String)
  | fail (fragments : List String) (msg : String)

/-- The source string of the metadata branch:
`"; ".join(set([doc.metadata.get("source", "N/A") for doc in docs]))`,
with the set's iteration order supplied as the parameter `ord` (the
program leaves it to CPython's hash-dependent set iteration). -/
def sourcesString (ord : List String → List String) (docs : List Doc) : String :=
  joinSep "; " (ord (docs.map (fun d => d.source.getD "N/A")))

/-- `generate_streaming_response` of `src/backend/main.py`, as the list of
events it yields.  `llm` models the streaming generation call of the
metadata branch; `qa` models `qa_chain(query)` of the semantic branch,
(answer, sources) on success or the exception message caught by the
surrounding `try`; `ord` models the iteration order of the Python `set()`
in the citations join, which the program does not fix. -/
def generate_streaming_response (vectorstore : Option (List Doc)) (query : String)
    (llm : LLMStream) (qa : Except String (String × String))
    (ord : List String → List String) : List REvent :=
  match vectorstore with
  | none => [.error "Vector store not initialized. Please run indexing first."]
  | some docs =>
    let entity_values := extract_possible_entities query
    let entity_hits :=
      if entity_values.isEmpty then [] else Backend.metadata_search entity_values docs
    if entity_hits.isEmpty then
      match qa with
      | .ok (answer, sources) => [.chunk answer, .sources sources]
      | .error msg => [.error msg]
    else
      let docs5 := entity_hits.take 5
      match llm with
      | .ok fragments => fragments.map .chunk ++ [.sources (sourcesString ord docs5)]
      | .fail fragments msg => fragments.map .chunk ++ [.error msg]

/-! ### Chunker

Modelled from the spec: the splitting itself is performed by the library
class `RecursiveCharacterTextSplitter(chunk_size=400, chunk_overlap=50)`,
whose code is not part of `src/` (only its call sites in
`src/index_documents.py` and `src/backend/main.py` are).  Following the
spec's §4.3 contract, a document's text is split into overlapping windows
of at most `max_size = 400` characters with `overlap = 50` characters
shared between consecutive windows; a text no longer than one window is a
single chunk.  The window step is therefore `400 - 50 = 350`.  Structural
recursion on a fuel bound; each step drops 350 characters, so `s.length`
fuel always suffices and the zero-fuel fallback is unreachable. -/
def chunk400Aux : Nat → List Char → List (List Char)
  | 0, s => [s]
  | fuel + 1, s =>
    if s.length ≤ 400 then [s]
    else s.take 400 :: chunk400Aux fuel (s.drop 350)

/-- Modelled from the spec: split one document text into overlapping
windows, `max_size = 400`, `overlap = 50`. -/
def chunk400 (s : List Char) : List (List Char) :=
  chunk400Aux s.length s

/-- The overlap contract between two consecutive chunks of one source
document: the earlier chunk is a full window and its last 50 characters
are exactly the first 50 characters of the later chunk. -/
def sharesOverlap50 (a b : List Char) : Prop :=
  a.length = 400 ∧ 50 ≤ b.length ∧ a.drop 350 = b.take 50

/-! ### Claim predicates used to state the spec's metadata-lookup rule -/

/-- The spec's substring clause for one header field: the field is present
(a non-empty string) and the entity value occurs inside it. -/
def specSubHit (e : String) (f : Option String) : Prop :=
  ∃ v, f = some v ∧ v ≠ "" ∧ pyIn e v = true

instance (e : String) (f : Option String) : Decidable (specSubHit e f) :=
  match f with
  | none => isFalse (by simp [specSubHit])
  | some v => decidable_of_iff (v ≠ "" ∧ pyIn e v = true) (by simp [specSubHit])

/-- The hit condition exactly as the claim states it: some entity value is
an element of `dates`, `names`, `records` or `underlined`, or some entity
value is a substring of a present `heading`, `version`, `revision` or
`source` field. -/
def specHit (entity_values : List String) (d : Doc) : Prop :=
  (∃ e ∈ entity_values,
    e ∈ d.dates ∨ e ∈ d.names ∨ e ∈ d.records ∨ e ∈ d.underlined) ∨
  (∃ e ∈ entity_values,
    ∃ f ∈ [d.heading, d.version, d.revision, d.source], specSubHit e f)

/-- The hit condition the CLI script actually implements: as `specHit` but
without the `records` field in the exact-match clause. -/
def specHitCli (entity_values : List String) (d : Doc) : Prop :=
  (∃ e ∈ entity_values, e ∈ d.dates ∨ e ∈ d.names ∨ e ∈ d.underlined) ∨
  (∃ e ∈ entity_values,
    ∃ f ∈ [d.heading, d.version, d.revision, d.source], specSubHit e f)

instance (es : List String) (d : Doc) : Decidable (specHit es d) := by
  unfold specHit
  exact inferInstance

instance (es : List String) (d : Doc) : Decidable (specHitCli es d) := by
  unfold specHitCli
  exact inferInstance

/-- Do two lists of strings have the same elements (Python set equality)? -/
def eqAsSets (a b : List String) : Bool :=
  a.all (fun x => decide (x ∈ b)) && b.all (fun x => decide (x ∈ a))

/-! ### Helper lemmas -/

theorem mem_pyDedup (x : String) (l : List String) : x ∈ pyDedup l ↔ x ∈ l := by
  induction l with
  | nil => simp [pyDedup]
  | cons y ys ih =>
    by_cases hxy : x = y <;> simp [pyDedup, List.mem_filter, ih, hxy]

theorem decide_mem_pyDedup (x : String) (l : List String) :
    decide (x ∈ pyDedup l) = decide (x ∈ l) := by
  simp [mem_pyDedup]

theorem nodup_pyDedup (l : List String) : (pyDedup l).Nodup := by
  induction l with
  | nil => simp [pyDedup]
  | cons y ys ih =>
    rw [pyDedup, List.nodup_cons]
    refine ⟨?_, ih.filter _⟩
    intro hmem
    simp [List.mem_filter] at hmem

theorem isSetOrder_pyDedup : IsSetOrder pyDedup :=
  fun l => ⟨nodup_pyDedup l, fun x => mem_pyDedup x l⟩

theorem isSetOrder_revDedup : IsSetOrder revDedup := by
  intro l
  constructor
  · simpa [revDedup] using nodup_pyDedup l
  · intro x
    simp [revDedup, mem_pyDedup]

/-- A duplicate-free list with the same elements as `[a]` is `[a]`: any
admissible set-iteration order is forced on one-element sets. -/
theorem nodup_same_mem_singleton {l : List String} {a : String}
    (hnd : l.Nodup) (hmem : ∀ x, x ∈ l ↔ x ∈ [a]) : l = [a] := by
  cases l with
  | nil =>
    have := (hmem a).mpr (by simp)
    simp at this
  | cons b t =>
    have hb : b = a := by simpa using (hmem b).mp (by simp)
    subst hb
    cases t with
    | nil => rfl
    | cons c u =>
      have hc : c = b := by simpa using (hmem c).mp (by simp)
      subst hc
      simp at hnd

theorem subFieldHit_iff (es : List String) (f : Option String) :
    subFieldHit es f = true ↔ ∃ e ∈ es, specSubHit e f := by
  cases f with
  | none => simp [subFieldHit, specSubHit]
  | some v =>
    simp only [subFieldHit, specSubHit, Bool.and_eq_true, List.any_eq_true,
      decide_eq_true_eq, Option.some.injEq]
    constructor
    · rintro ⟨hv, e, he, hin⟩
      exact ⟨e, he, v, rfl, by simpa using hv, hin⟩
    · rintro ⟨e, he, w, rfl, hv, hin⟩
      exact ⟨by simpa using hv, e, he, hin⟩

theorem backend_docFound_iff (es : List String) (d : Doc) :
    Backend.docFound es d = true ↔ specHit es d := by
  simp only [Backend.docFound, specHit, Bool.or_eq_true, List.any_cons,
    List.any_nil, Bool.or_false, List.any_eq_true, decide_eq_true_eq,
    subFieldHit_iff, List.exists_mem_cons_iff, List.not_mem_nil,
    false_and, exists_false, or_false, and_or_left, exists_or, or_assoc]

theorem cli_docFound_iff (es : List String) (d : Doc) :
    Cli.docFound es d = true ↔ specHitCli es d := by
  simp only [Cli.docFound, specHitCli, Bool.or_eq_true, List.any_cons,
    List.any_nil, Bool.or_false, List.any_eq_true, decide_eq_true_eq,
    subFieldHit_iff, List.exists_mem_cons_iff, List.not_mem_nil,
    false_and, exists_false, or_false, and_or_left, exists_or, or_assoc]

/-! ### Claim theorems -/

/-- C1: for every query against a loaded chunk set, the orchestrator takes
the metadata path exactly when the entity set extracted from the query is
non-empty and the metadata lookup over the loaded chunk set returns at
least one chunk, and takes the semantic path in every other case. -/
theorem c1_hybrid_routing (docs : List Doc) (query : String) :
    (routeOf (some docs) query = RoutePath.metadataPath ↔
      (extract_possible_entities query ≠ [] ∧
        Backend.metadata_search (extract_possible_entities query) docs ≠ [])) ∧
    (routeOf (some docs) query = RoutePath.semanticPath ↔
      ¬(extract_possible_entities query ≠ [] ∧
        Backend.metadata_search (extract_possible_entities query) docs ≠ [])) := by
  by_cases he : extract_possible_entities query = []
  · simp [routeOf, he]
  · by_cases hh : Backend.metadata_search (extract_possible_entities query) docs = []
    · simp [routeOf, he, hh]
    · simp [routeOf, he, hh]

/-- C4: with no vector index loaded, the answer stream is the single
terminal error event reporting that the index is unavailable (whatever the
collaborators and the set-iteration order do); no fragment or citations
event is ever emitted. -/
theorem c4_no_index_single_error (query : String) (llm : LLMStream)
    (qa : Except String (String × String)) (ord : List String → List String) :
    generate_streaming_response none query llm qa ord =
      [REvent.error "Vector store not initialized. Please run indexing first."] ∧
    (∀ s : String,
      REvent.chunk s ∉ generate_streaming_response none query llm qa ord ∧
      REvent.sources s ∉ generate_streaming_response none query llm qa ord) := by
  refine ⟨rfl, ?_⟩
  intro s
  simp [generate_streaming_response]

/-- C10: both metadata searches return each stored chunk at most once and
in document-store (build) order: on a duplicate-free store the result is
duplicate-free and is a sublist (order-preserving selection) of the
store. -/
theorem c10_lookup_once_in_order (entity_values : List String) (docs : List Doc)
    (h : docs.Nodup) :
    ((Backend.metadata_search entity_values docs).Nodup ∧
      List.Sublist (Backend.metadata_search entity_values docs) docs) ∧
    ((Cli.metadata_search entity_values docs).Nodup ∧
      List.Sublist (Cli.metadata_search entity_values docs) docs) :=
  ⟨⟨h.filter _, List.filter_sublist _⟩, ⟨h.filter _, List.filter_sublist _⟩⟩

/-- A chunk whose `records` metadata holds one record code, with a source
path, used in concrete instantiations. -/
def recDoc : Doc :=
  { emptyDoc with records := ["SOP-123456"], source := some "documents/sop1.docx" }

/-- A second chunk hit by nothing, used in concrete instantiations. -/
def otherDoc : Doc :=
  { emptyDoc with names := ["John Smith"], source := some "documents/sop2.docx" }

/-- C10 witness: the theorem applied to a concrete duplicate-free store. -/
theorem c10_witness :
    [recDoc, otherDoc].Nodup ∧
    (((Backend.metadata_search ["SOP-123456"] [recDoc, otherDoc]).Nodup ∧
      List.Sublist (Backend.metadata_search ["SOP-123456"] [recDoc, otherDoc])
        [recDoc, otherDoc]) ∧
    ((Cli.metadata_search ["SOP-123456"] [recDoc, otherDoc]).Nodup ∧
      List.Sublist (Cli.metadata_search ["SOP-123456"] [recDoc, otherDoc])
        [recDoc, otherDoc])) :=
  ⟨by decide, c10_lookup_once_in_order ["SOP-123456"] [recDoc, otherDoc] (by decide)⟩

/-- C8: when the first non-empty row (after dropping all-empty rows)
splits into fewer than 2 columns — in particular when there are no rows at
all — table conversion returns the input text unchanged. -/
theorem c8_table_noop (text : String)
    (h : ((buildTable text).headD []).length < 2) :
    table_text_to_markdown text = text := by
  rcases hb : buildTable text with _ | ⟨header, rest⟩
  · simp [table_text_to_markdown, hb]
  · have h2 : header.length < 2 := by simpa [hb] using h
    simp [table_text_to_markdown, hb, h2]

/-- C8 witness: the theorem applied to a concrete single-column text. -/
theorem c8_witness :
    ((buildTable "hello\nworld").headD []).length < 2 ∧
      table_text_to_markdown "hello\nworld" = "hello\nworld" :=
  ⟨by decide, c8_table_noop "hello\nworld" (by decide)⟩

/-- C9 counterexample: on `"a  b\nc  d  e"` the conversion produces a
table whose third emitted row has three cells while the header has two, so
not every emitted row has exactly header width. -/
theorem c9_counterexample :
    ¬ (∀ r ∈ emittedCellRows "a  b\nc  d  e",
        r.length = ((buildTable "a  b\nc  d  e").headD []).length) := by
  decide

/-- C9 amended: every emitted row has at least as many cells as the header
row; data rows with at most header-width cells are padded with empty cells
to exactly header width, while longer data rows keep all their cells
(emitted width is the maximum of the two); the header-separator row has
exactly one dash cell per header cell. -/
theorem c9_row_widths (text : String) (header : List (List Char))
    (rest : List (List (List Char)))
    (hb : buildTable text = header :: rest) (h2 : 2 ≤ header.length) :
    (∀ r ∈ emittedCellRows text, header.length ≤ r.length) ∧
    (∀ r ∈ rest, (padRow header.length r).length = max r.length header.length) ∧
    (∀ r ∈ rest, r.length ≤ header.length →
      (padRow header.length r).length = header.length) ∧
    (List.replicate header.length ['-', '-', '-']).length = header.length := by
  have hpadlen : ∀ r : List (List Char),
      (padRow header.length r).length = max r.length header.length := by
    intro r
    simp only [padRow, List.length_append, List.length_replicate]
    omega
  refine ⟨?_, fun r _ => hpadlen r, fun r _ hle => by rw [hpadlen r]; omega, by simp⟩
  intro r hr
  have hnot : ¬ header.length < 2 := by omega
  simp only [emittedCellRows, hb, if_neg hnot, emitRows, List.mem_cons,
    List.mem_map] at hr
  rcases hr with rfl | rfl | ⟨r0, _, rfl⟩
  · exact Nat.le_refl _
  · simp
  · rw [hpadlen r0]
    omega

/-- C9 witness: the amended theorem applied to the concrete table text
`"a  b\nc  d  e"`. -/
theorem c9_witness :
    buildTable "a  b\nc  d  e" = [['a'], ['b']] :: [[['c'], ['d'], ['e']]] ∧
    2 ≤ ([['a'], ['b']] : List (List Char)).length ∧
    ((∀ r ∈ emittedCellRows "a  b\nc  d  e",
        ([['a'], ['b']] : List (List Char)).length ≤ r.length) ∧
      (∀ r ∈ [[['c'], ['d'], ['e']]],
        (padRow ([['a'], ['b']] : List (List Char)).length r).length =
          max r.length ([['a'], ['b']] : List (List Char)).length) ∧
      (∀ r ∈ [[['c'], ['d'], ['e']]],
        r.length ≤ ([['a'], ['b']] : List (List Char)).length →
          (padRow ([['a'], ['b']] : List (List Char)).length r).length =
            ([['a'], ['b']] : List (List Char)).length) ∧
      (List.replicate ([['a'], ['b']] : List (List Char)).length
        ['-', '-', '-']).length = ([['a'], ['b']] : List (List Char)).length) :=
  ⟨by decide, by decide,
    c9_row_widths "a  b\nc  d  e" [['a'], ['b']] [[['c'], ['d'], ['e']]]
      (by decide) (by decide)⟩

/-- C7 counterexample: chunk-time extraction on a text repeating one name
returns that name twice in the `names` category, so the categories are not
duplicate-free. -/
theorem c7_counterexample :
    ¬ ((extract_entities "John Smith John Smith").dates.Nodup ∧
       (extract_entities "John Smith John Smith").names.Nodup ∧
       (extract_entities "John Smith John Smith").records.Nodup) := by
  decide

/-- C7 amended: chunk-time extraction keeps its categories as raw
`re.findall` match lists, retaining duplicates (a repeated name appears
repeatedly); the metadata hit test is insensitive to such duplicates,
since a hit depends only on membership in the stored lists. -/
theorem c7_duplicates_retained :
    (extract_entities "John Smith John Smith").names =
      ["John Smith", "John Smith"] ∧
    (∀ (es : List String) (d : Doc),
      Backend.docFound es
        { d with dates := pyDedup d.dates, names := pyDedup d.names,
                 records := pyDedup d.records,
                 underlined := pyDedup d.underlined } =
      Backend.docFound es d) := by
  refine ⟨by decide, ?_⟩
  intro es d
  simp only [Backend.docFound, List.any_cons, List.any_nil,
    decide_mem_pyDedup]

/-- C6 counterexample: on `"abcDEF123"` query-time extraction finds the
serial `"DEF123"` (its pattern has no word-boundary anchors) while
chunk-time extraction finds nothing, so the two entity sets differ. -/
theorem c6_counterexample :
    eqAsSets (extract_possible_entities "abcDEF123")
      (flattenCats (extract_entities "abcDEF123")) = false := by
  decide

/-- C6 amended: the query-time and chunk-time extractors share the
identical date pattern, so the dates category agrees on every text; but
the query-time name and record patterns drop the chunk-time word-boundary
anchors (and the query name pattern requires a single literal space rather
than arbitrary whitespace), so the flattened entity sets differ on some
texts — for example on `"McJohn Smith"`. -/
theorem c6_extractors_relation :
    (∀ text : String, reFindallS dateQueryRE text = reFindallS dateChunkRE text) ∧
    eqAsSets (extract_possible_entities "McJohn Smith")
      (flattenCats (extract_entities "McJohn Smith")) = false :=
  ⟨fun _ => rfl, by decide⟩

/-- C2 counterexample: the CLI metadata search does not check the
`records` field, so for a chunk whose only matching metadata is a record
code in `records`, the claimed hit-iff characterization fails on the CLI
implementation. -/
theorem c2_counterexample :
    specHit ["SOP-123456"] recDoc ∧ recDoc ∈ [recDoc] ∧
      recDoc ∉ Cli.metadata_search ["SOP-123456"] [recDoc] := by
  decide

/-- C2 amended: the backend metadata search reports a chunk as a hit
exactly as the claim states (exact match in `dates`, `names`, `records`
or `underlined`, or a substring occurrence in a present `heading`,
`version`, `revision` or `source` field); the CLI metadata search
implements the same rule without `records` in its exact-match fields; and
in the backend, a query whose entity set picks out exactly one chunk is
routed to the metadata path with that chunk's source cited in the
citations event (for every admissible set-iteration order: a one-element
set has only one enumeration). -/
theorem c2_metadata_hit_iff :
    (∀ (es : List String) (docs : List Doc) (d : Doc),
      d ∈ Backend.metadata_search es docs ↔ d ∈ docs ∧ specHit es d) ∧
    (∀ (es : List String) (docs : List Doc) (d : Doc),
      d ∈ Cli.metadata_search es docs ↔ d ∈ docs ∧ specHitCli es d) ∧
    (∀ (query : String) (docs : List Doc) (d : Doc) (frags : List String)
      (qa : Except String (String × String)) (ord : List String → List String),
      IsSetOrder ord →
      extract_possible_entities query ≠ [] →
      Backend.metadata_search (extract_possible_entities query) docs = [d] →
      routeOf (some docs) query = RoutePath.metadataPath ∧
      generate_streaming_response (some docs) query (.ok frags) qa ord =
        frags.map REvent.chunk ++ [REvent.sources (d.source.getD "N/A")]) := by
  refine ⟨?_, ?_, ?_⟩
  · intro es docs d
    rw [Backend.metadata_search, List.mem_filter, backend_docFound_iff]
  · intro es docs d
    rw [Cli.metadata_search, List.mem_filter, cli_docFound_iff]
  · intro query docs d frags qa ord hord hne hone
    have hemp : (extract_possible_entities query).isEmpty = false := by
      rcases h : extract_possible_entities query with _ | _
      · exact absurd h hne
      · rfl
    have hord1 : ord [d.source.getD "N/A"] = [d.source.getD "N/A"] :=
      nodup_same_mem_singleton (hord _).1 (hord _).2
    constructor
    · simp [routeOf, hemp, hone]
    · simp [generate_streaming_response, hemp, hone, sourcesString, hord1,
        joinSep]

/-- C2 witness: the amended theorem's routing clause applied to a concrete
store, the first-occurrence set order and a query containing the record
code of exactly one chunk. -/
theorem c2_witness :
    IsSetOrder pyDedup ∧
    extract_possible_entities "what is SOP-123456 about" ≠ [] ∧
    Backend.metadata_search
      (extract_possible_entities "what is SOP-123456 about")
      [recDoc, otherDoc] = [recDoc] ∧
    (routeOf (some [recDoc, otherDoc]) "what is SOP-123456 about" =
        RoutePath.metadataPath ∧
      generate_streaming_response (some [recDoc, otherDoc])
          "what is SOP-123456 about" (.ok ["The answer."]) (.ok ("", ""))
          pyDedup =
        [REvent.chunk "The answer."].append
          [REvent.sources (recDoc.source.getD "N/A")]) :=
  ⟨isSetOrder_pyDedup, by decide, by decide,
    c2_metadata_hit_iff.2.2 "what is SOP-123456 about" [recDoc, otherDoc]
      recDoc ["The answer."] (.ok ("", "")) pyDedup isSetOrder_pyDedup
      (by decide) (by decide)⟩

/-- Two chunks sharing one record code but with different source paths:
a metadata query hitting both puts a two-element set into the citations
join, where the set-iteration order becomes observable. -/
def twinDocA : Doc :=
  { emptyDoc with records := ["SOP-123456"], source := some "documents/a.docx" }

/-- See `twinDocA`. -/
def twinDocB : Doc :=
  { emptyDoc with records := ["SOP-123456"], source := some "documents/b.docx" }

/-- C3 counterexample: the citations payload is built by joining a Python
`set()`, whose iteration order CPython does not fix; two admissible
iteration orders produce different event streams on the same query, store
and collaborator outcomes, so the citations event of the program carries
no order-stable source list. -/
theorem c3_counterexample :
    IsSetOrder pyDedup ∧ IsSetOrder revDedup ∧
    generate_streaming_response (some [twinDocA, twinDocB])
        "what is SOP-123456 about" (.ok []) (.ok ("", "")) pyDedup ≠
      generate_streaming_response (some [twinDocA, twinDocB])
        "what is SOP-123456 about" (.ok []) (.ok ("", "")) revDedup :=
  ⟨isSetOrder_pyDedup, isSetOrder_revDedup, by decide⟩

/-- C3 amended: for every query and every admissible set-iteration order,
the answer-event sequence is zero or more content-fragment events (the
fragments in generation order) followed by exactly one terminal citations
event, or zero or more content-fragment events followed by exactly one
terminal error event — so nothing follows an error event; every event
serializes to a JSON object with exactly one top-level key among `chunk`,
`sources` and `error`; and the citations payload is the join of a
deduplicated source list (each distinct source exactly once), whose order
is whatever the set iteration yields and is not order-stable. -/
theorem c3_stream_grammar (vs : Option (List Doc)) (query : String)
    (llm : LLMStream) (qa : Except String (String × String))
    (ord : List String → List String) (hord : IsSetOrder ord) :
    (∃ frags : List String,
      (∃ s, generate_streaming_response vs query llm qa ord =
          frags.map REvent.chunk ++ [REvent.sources s]) ∨
      (∃ m, generate_streaming_response vs query llm qa ord =
          frags.map REvent.chunk ++ [REvent.error m])) ∧
    (∀ e ∈ generate_streaming_response vs query llm qa ord,
      (eventObj e).length = 1 ∧
        ((eventObj e).map Prod.fst = ["chunk"] ∨
          (eventObj e).map Prod.fst = ["sources"] ∨
          (eventObj e).map Prod.fst = ["error"])) ∧
    (∀ ds : List Doc, ∃ srcs : List String, srcs.Nodup ∧
      sourcesString ord ds = joinSep "; " srcs ∧
      (∀ x, x ∈ srcs ↔ x ∈ ds.map (fun d => d.source.getD "N/A"))) := by
  refine ⟨?_, ?_, ?_⟩
  · cases vs with
    | none => exact ⟨[], Or.inr ⟨_, rfl⟩⟩
    | some docs =>
      simp only [generate_streaming_response]
      cases hh : (if (extract_possible_entities query).isEmpty then []
          else Backend.metadata_search (extract_possible_entities query) docs).isEmpty with
      | false =>
        cases llm with
        | ok frags => exact ⟨frags, Or.inl ⟨_, rfl⟩⟩
        | fail frags msg => exact ⟨frags, Or.inr ⟨msg, rfl⟩⟩
      | true =>
        cases qa with
        | ok p =>
          obtain ⟨a, srcs⟩ := p
          exact ⟨[a], Or.inl ⟨srcs, rfl⟩⟩
        | error msg => exact ⟨[], Or.inr ⟨msg, rfl⟩⟩
  · intro e _
    cases e <;> simp [eventObj]
  · intro ds
    exact ⟨ord (ds.map (fun d : Doc => d.source.getD "N/A")),
      (hord _).1, rfl, fun x => (hord _).2 x⟩

/-! ### C5: size and overlap of the spec-modelled chunker -/

theorem chunk400Aux_head (fuel : Nat) (s : List Char)
    (hs : s.length ≤ 400 + 350 * fuel) :
    ∃ rest, chunk400Aux fuel s = s.take 400 :: rest := by
  cases fuel with
  | zero =>
    refine ⟨[], ?_⟩
    rw [chunk400Aux, List.take_of_length_le (by omega)]
  | succ fuel =>
    by_cases h4 : s.length ≤ 400
    · refine ⟨[], ?_⟩
      rw [chunk400Aux, if_pos h4, List.take_of_length_le h4]
    · exact ⟨_, by rw [chunk400Aux, if_neg h4]⟩

theorem chunk400Aux_spec (fuel : Nat) : ∀ s : List Char,
    s.length ≤ 400 + 350 * fuel →
    (∀ c ∈ chunk400Aux fuel s, c.length ≤ 400) ∧
    List.Chain' sharesOverlap50 (chunk400Aux fuel s) := by
  induction fuel with
  | zero =>
    intro s hs
    constructor
    · intro c hc
      rw [chunk400Aux, List.mem_singleton] at hc
      subst hc
      omega
    · rw [chunk400Aux]
      exact List.chain'_singleton s
  | succ fuel ih =>
    intro s hs
    by_cases h4 : s.length ≤ 400
    · rw [chunk400Aux, if_pos h4]
      exact ⟨fun c hc => by rw [List.mem_singleton] at hc; subst hc; omega,
        List.chain'_singleton s⟩
    · have hdrop : (s.drop 350).length ≤ 400 + 350 * fuel := by
        rw [List.length_drop]
        omega
      obtain ⟨ihAll, ihChain⟩ := ih (s.drop 350) hdrop
      rw [chunk400Aux, if_neg h4]
      constructor
      · intro c hc
        rcases List.mem_cons.mp hc with rfl | hc
        · rw [List.length_take]
          omega
        · exact ihAll c hc
      · obtain ⟨rest, hrest⟩ := chunk400Aux_head fuel (s.drop 350) hdrop
        rw [hrest, List.chain'_cons]
        refine ⟨⟨?_, ?_, ?_⟩, ?_⟩
        · rw [List.length_take]
          omega
        · rw [List.length_take, List.length_drop]
          omega
        · rw [List.drop_take, List.take_take]
          norm_num
        · rw [← hrest]
          exact ihChain

/-- C5: the chunker at `max_size = 400`, `overlap = 50` never produces a
chunk longer than 400 characters, and every pair of consecutive chunks of
one source text shares at least 50 overlapping characters (the earlier
chunk's last 50 characters are the later chunk's first 50); a source
shorter than one window yields a single chunk, for which the pair
condition is vacuous. -/
theorem c5_chunk_size_overlap (s : List Char) :
    (∀ c ∈ chunk400 s, c.length ≤ 400) ∧
    List.Chain' sharesOverlap50 (chunk400 s) := by
  have h := chunk400Aux_spec s.length s (by omega)
  simpa [chunk400] using h

/-! ### Witness instantiations -/

/-- C1 witness: the routing criterion at a concrete store and query. -/
theorem c1_witness :
    (routeOf (some [recDoc, otherDoc]) "tell me about SOP-123456" =
        RoutePath.metadataPath ↔
      (extract_possible_entities "tell me about SOP-123456" ≠ [] ∧
        Backend.metadata_search
          (extract_possible_entities "tell me about SOP-123456")
          [recDoc, otherDoc] ≠ [])) ∧
    (routeOf (some [recDoc, otherDoc]) "tell me about SOP-123456" =
        RoutePath.semanticPath ↔
      ¬(extract_possible_entities "tell me about SOP-123456" ≠ [] ∧
        Backend.metadata_search
          (extract_possible_entities "tell me about SOP-123456")
          [recDoc, otherDoc] ≠ [])) :=
  c1_hybrid_routing [recDoc, otherDoc] "tell me about SOP-123456"

/-- C3 witness: the event-grammar clause at a concrete loaded store and a
concrete admissible set-iteration order, the hypothesis discharged by
`isSetOrder_pyDedup`. -/
theorem c3_witness :
    IsSetOrder pyDedup ∧
    (∃ frags : List String,
      (∃ s, generate_streaming_response (some [recDoc, otherDoc]) "hello"
          (.ok ["one", "two"]) (.ok ("answer", "src")) pyDedup =
          frags.map REvent.chunk ++ [REvent.sources s]) ∨
      (∃ m, generate_streaming_response (some [recDoc, otherDoc]) "hello"
          (.ok ["one", "two"]) (.ok ("answer", "src")) pyDedup =
          frags.map REvent.chunk ++ [REvent.error m])) :=
  ⟨isSetOrder_pyDedup,
    (c3_stream_grammar (some [recDoc, otherDoc]) "hello"
      (.ok ["one", "two"]) (.ok ("answer", "src")) pyDedup
      isSetOrder_pyDedup).1⟩

/-- C4 witness: the theorem at a concrete query, collaborators and
set-iteration order. -/
theorem c4_witness :
    generate_streaming_response none "any question"
        (.ok ["x"]) (.ok ("a", "b")) pyDedup =
      [REvent.error "Vector store not initialized. Please run indexing first."] ∧
    (∀ s : String,
      REvent.chunk s ∉ generate_streaming_response none "any question"
        (.ok ["x"]) (.ok ("a", "b")) pyDedup ∧
      REvent.sources s ∉ generate_streaming_response none "any question"
        (.ok ["x"]) (.ok ("a", "b")) pyDedup) :=
  c4_no_index_single_error "any question" (.ok ["x"]) (.ok ("a", "b")) pyDedup

/-- C5 witness: the size/overlap contract on a concrete 500-character
source text. -/
theorem c5_witness :
    (∀ c ∈ chunk400 (List.replicate 500 'a'), c.length ≤ 400) ∧
    List.Chain' sharesOverlap50 (chunk400 (List.replicate 500 'a')) :=
  c5_chunk_size_overlap (List.replicate 500 'a')

/-- C6 witness: the date-pattern agreement at a concrete text, together
with the concrete disagreement of the flattened sets. -/
theorem c6_witness :
    reFindallS dateQueryRE "due 12 March 2024" =
      reFindallS dateChunkRE "due 12 March 2024" ∧
    eqAsSets (extract_possible_entities "McJohn Smith")
      (flattenCats (extract_entities "McJohn Smith")) = false :=
  ⟨c6_extractors_relation.1 "due 12 March 2024", c6_extractors_relation.2⟩

/-- C7 witness: the duplicate-insensitivity clause at a concrete entity
set and chunk. -/
theorem c7_witness :
    Backend.docFound ["SOP-123456"]
      { recDoc with dates := pyDedup recDoc.dates,
                    names := pyDedup recDoc.names,
                    records := pyDedup recDoc.records,
                    underlined := pyDedup recDoc.underlined } =
    Backend.docFound ["SOP-123456"] recDoc :=
  c7_duplicates_retained.2 ["SOP-123456"] recDoc
